import Mathlib

/-!
Shallow embedding of the size-mapping rule engine of `sev-nail-sizer`
(`api/src/routes/recommend.ts`, `api/src/routes/admin.ts`, schema in
`api/src/db/schema.ts`).

Conventions of the embedding:
* JavaScript floating-point numbers are modelled as exact rationals (`ℚ`);
  the algorithm is comparison- and division-based, and all constants of the
  source (`0.33`, `0.67`, `0.5`, `0.3`) are carried over as the exact
  rationals `33/100`, `67/100`, `1/2`, `3/10`.
* `Array.prototype.sort(cmp)` is modelled as a stable insertion sort.  The
  runtime (Node's V8 TimSort) consults the comparator only through
  `cmp x y < 0` tests, i.e. it keeps `a` before `b` exactly when
  `¬(cmp b a < 0)`.  For a consistent comparator — the live matcher's — this
  is the same as keeping `a` before `b` whenever `cmp a b ≤ 0`, the ECMAScript
  stable-sort semantics, and the live sort is modelled with the latter.  The
  preview's comparator is inconsistent (it reports `(ALL, finger-specific)`
  equal-priority pairs as ties in one orientation only), so the preview sort
  is modelled with the `¬(cmp b a < 0)` relation the engine actually uses.
* Fallible paths (JavaScript `undefined` property access that would throw)
  are modelled with `Option`/dedicated outcome constructors.
* Database rows are modelled as structures, tables as lists kept in the
  order the queries of the source return them.
-/

namespace SevNailSizer

/-- The five finger names (`type FingerName` in `recommend.ts`). -/
inductive FingerName : Type
  | thumb
  | fIndex
  | middle
  | ring
  | pinky
deriving DecidableEq, Repr

/-- The `finger` column of a size rule: the string `"all"` or a specific
finger name (`schema.ts`, `size_rules.finger`). -/
inductive RuleFinger : Type
  | all
  | specific (name : FingerName)
deriving DecidableEq, Repr

/-- Fit classification (`type FitLabel` in `recommend.ts`). -/
inductive FitLabel : Type
  | snug
  | standard
  | loose
deriving DecidableEq, Repr

/-- The `between_sizes` column of `size_rules_config`. -/
inductive BetweenSizes : Type
  | size_up
  | size_down
deriving DecidableEq, Repr

/-- A row of the `size_rules` table (`schema.ts`). -/
structure SizeRule : Type where
  chartId : String
  finger : RuleFinger
  minWidthMm : ℚ
  maxWidthMm : ℚ
  mappedSize : ℤ
  priority : ℤ
deriving DecidableEq, Repr

/-- A row of the `size_rules_config` table (`schema.ts`). -/
structure SizeRulesConfig : Type where
  chartId : String
  betweenSizes : BetweenSizes
  toleranceMm : ℚ
deriving DecidableEq, Repr

/-- The default configuration substituted by `recommend.ts` when no config
row exists: `{ betweenSizes: 'size_down', toleranceMm: 0.3 }`. -/
def defaultConfig : SizeRulesConfig :=
  { chartId := "default", betweenSizes := BetweenSizes.size_down, toleranceMm := 3/10 }

/-- The filter of `applyRulesToFinger`:
`rules.filter((r) => r.finger === 'all' || r.finger === fingerName)`. -/
def fingerMatches (fingerName : FingerName) (r : SizeRule) : Bool :=
  decide (r.finger = RuleFinger.all) || decide (r.finger = RuleFinger.specific fingerName)

/-- The sort comparator of `applyRulesToFinger` (`recommend.ts` lines 39–44):
higher priority first; a finger-specific rule before an `'all'` rule at equal
priority. -/
def ruleCompare (fingerName : FingerName) (a b : SizeRule) : ℤ :=
  if b.priority ≠ a.priority then b.priority - a.priority
  else if a.finger = RuleFinger.specific fingerName ∧ b.finger = RuleFinger.all then -1
  else if a.finger = RuleFinger.all ∧ b.finger = RuleFinger.specific fingerName then 1
  else 0

/-- The filtered and sorted rule list (`relevant`) of `applyRulesToFinger`. -/
def sortRelevant (fingerName : FingerName) (rules : List SizeRule) : List SizeRule :=
  List.insertionSort (fun a b => ruleCompare fingerName a b ≤ 0)
    (rules.filter (fingerMatches fingerName))

/-- Inclusive range membership test of the exact-match scan:
`widthMm >= rule.minWidthMm && widthMm <= rule.maxWidthMm`. -/
def containsWidth (widthMm : ℚ) (r : SizeRule) : Bool :=
  decide (r.minWidthMm ≤ widthMm) && decide (widthMm ≤ r.maxWidthMm)

/-- The `position` of the exact-match branch (`recommend.ts` lines 49–50):
`range > 0 ? (widthMm - rule.minWidthMm) / range : 0.5`. -/
def positionOf (widthMm : ℚ) (r : SizeRule) : ℚ :=
  if r.maxWidthMm - r.minWidthMm > 0
  then (widthMm - r.minWidthMm) / (r.maxWidthMm - r.minWidthMm)
  else 1/2

/-- Fit computation of the exact-match branch (`recommend.ts` line 51). -/
def exactFit (widthMm : ℚ) (r : SizeRule) : FitLabel :=
  if positionOf widthMm r < 33/100 then FitLabel.snug
  else if positionOf widthMm r > 67/100 then FitLabel.loose
  else FitLabel.standard

/-- Boundary distance of a rule
(`Math.min(Math.abs(widthMm - rule.minWidthMm), Math.abs(widthMm - rule.maxWidthMm))`). -/
def ruleDist (widthMm : ℚ) (r : SizeRule) : ℚ :=
  min |widthMm - r.minWidthMm| |widthMm - r.maxWidthMm|

/-- One step of the nearest-rule accumulation loops of `applyRulesToFinger`.
`none` models the initial `(null, Infinity)` accumulator; the qualifier `p`
is `diff <= config.toleranceMm` for the tolerance loop and trivially true for
the last-resort loop, and the stored `ℚ` is the running nearest distance. -/
def scanFold (p : SizeRule → Bool) (v : SizeRule → ℚ)
    (acc : Option (SizeRule × ℚ)) (r : SizeRule) : Option (SizeRule × ℚ) :=
  let d := v r
  if p r && (match acc with
             | none => true
             | some (_, nd) => decide (d < nd)) then some (r, d)
  else acc

/-- The per-finger matcher `applyRulesToFinger` of `recommend.ts`.
Returns `none` exactly when the filtered rule list is empty, in which case the
source dereferences `relevant[0].mappedSize` on `undefined` and throws. -/
def applyRulesToFinger (widthMm : ℚ) (fingerName : FingerName)
    (rules : List SizeRule) (config : SizeRulesConfig) : Option (ℤ × FitLabel) :=
  match (sortRelevant fingerName rules).find? (containsWidth widthMm) with
  | some rule => some (rule.mappedSize, exactFit widthMm rule)
  | none =>
    match (sortRelevant fingerName rules).foldl
        (scanFold (fun r => decide (ruleDist widthMm r ≤ config.toleranceMm))
          (ruleDist widthMm)) none with
    | some (rule, _) =>
      some (rule.mappedSize,
        if config.betweenSizes = BetweenSizes.size_down then FitLabel.snug
        else FitLabel.loose)
    | none =>
      match (sortRelevant fingerName rules).foldl
          (scanFold (fun _ => true) (ruleDist widthMm)) none with
      | some (rule, _) => some (rule.mappedSize, FitLabel.standard)
      | none => none

-- ── Admin preview matcher (`admin.ts`, POST /rules/preview) ──────────────────

/-- The sort comparator of the preview endpoint (`admin.ts` lines 399–403).
Unlike `ruleCompare` it has no branch returning `1` for an `'all'` rule
compared against an equal-priority finger-specific rule: it returns `0`
there, making the comparator inconsistent as an ECMAScript comparator. -/
def previewCompare (fingerName : FingerName) (a b : SizeRule) : ℤ :=
  if b.priority ≠ a.priority then b.priority - a.priority
  else if a.finger = RuleFinger.specific fingerName ∧ b.finger = RuleFinger.all then -1
  else 0

/-- The filtered and sorted rule list of the preview endpoint.  V8's TimSort
consults the comparator only through `cmp x y < 0` tests (run detection and
binary insertion), so an element `a` ends up before `b` exactly when
`¬(previewCompare b a < 0)`; the stable insertion sort below uses that
relation.  The `0`-vs-`1` difference between this comparator and the live
one is invisible to `< 0` tests, so this sort coincides with the live
`sortRelevant` (proved in `previewSort_eq_sortRelevant`). -/
def previewSort (fingerName : FingerName) (rules : List SizeRule) : List SizeRule :=
  List.insertionSort (fun a b => ¬(previewCompare fingerName b a < 0))
    (rules.filter (fingerMatches fingerName))

/-- The per-finger size computed by the preview endpoint (`admin.ts` lines
405–411): `let size = relevant[0]?.mappedSize ?? 5` followed by the exact
range scan that overwrites `size` at the first containing rule. -/
def previewFinger (widthMm : ℚ) (fingerName : FingerName)
    (rules : List SizeRule) : ℤ :=
  match (previewSort fingerName rules).find? (containsWidth widthMm) with
  | some rule => rule.mappedSize
  | none =>
    match (previewSort fingerName rules).head? with
    | some rule => rule.mappedSize
    | none => 5

-- ── The POST /v1/recommend pipeline (`recommend.ts` lines 100–238) ───────────

/-- Per-finger measurement data (the JSONB `fingers` column of
`measurements`). -/
structure FingerData : Type where
  width_mm : ℚ
  length_mm : ℚ
  curve_adj_width_mm : ℚ
  confidence : ℚ
deriving DecidableEq, Repr

/-- A row of the `measurements` table, restricted to the fields the
recommend route reads. A finger absent from the JSONB object is `none`. -/
structure Measurement : Type where
  id : String
  fingers : FingerName → Option FingerData

/-- A row of the `nail_sizes` table, restricted to the fields the recommend
route reads (`label` is nullable). -/
structure NailSizeRow : Type where
  chartId : String
  sizeNumber : ℤ
  label : Option String
deriving DecidableEq, Repr

/-- A row of the `size_sets` table, restricted to the fields the recommend
route reads. -/
structure SizeSetRow : Type where
  id : ℤ
  chartId : String
  name : String
  thumbSize : ℤ
  indexSize : ℤ
  middleSize : ℤ
  ringSize : ℤ
  pinkySize : ℤ
deriving DecidableEq, Repr

/-- A per-finger entry of the response (`interface FingerResult`). -/
structure FingerResult : Type where
  size : ℤ
  size_label : String
  width_mm : ℚ
  fit : FitLabel
deriving DecidableEq, Repr

instance : Inhabited FingerResult :=
  ⟨{ size := 0, size_label := "", width_mm := 0, fit := FitLabel.standard }⟩

/-- An entry of `matchingSets` before the internal `_id` is dropped from the
response (`recommend.ts` line 211). -/
structure MatchEntry : Type where
  set_name : String
  set_id : String
  exact_match : Bool
  diff : ℕ
  internalId : ℤ
deriving DecidableEq, Repr

/-- A row of the `recommendations` table as inserted by the route
(`recommend.ts` lines 223–229). -/
structure RecommendationRow : Type where
  measurementId : String
  chartId : String
  sizeProfile : String
  sizes : List (FingerName × ℤ × String × FitLabel)
  matchingSetId : Option ℤ

/-- The database state visible to the recommend route. Each list holds the
rows in the order the corresponding query of the source returns them (for
`size_rules` that query orders by priority descending; the matcher re-sorts
anyway). -/
structure Db : Type where
  measurements : List Measurement
  sizeRules : List SizeRule
  sizeRulesConfig : List SizeRulesConfig
  nailSizes : List NailSizeRow
  sizeSets : List SizeSetRow
  recommendations : List RecommendationRow

/-- The JSON body of the response on success. -/
structure RecommendResponse : Type where
  measurement_id : String
  size_profile : String
  per_finger : List (FingerName × FingerResult)
  matching_sets : List MatchEntry

/-- Outcome of one invocation of the route handler. `fault` models an
unhandled JavaScript exception (a thrown `TypeError`), as opposed to the
error JSON responses the handler returns itself. -/
inductive RouteOutcome : Type
  | ok (resp : RecommendResponse)
  | clientError (code : String) (message : String)
  | fault

/-- The fixed iteration order of the route (`recommend.ts` line 165). -/
def fingerNames : List FingerName :=
  [FingerName.thumb, FingerName.fIndex, FingerName.middle, FingerName.ring,
   FingerName.pinky]

/-- Rendering of a finger name into the strings the source uses. -/
def fingerString : FingerName → String
  | FingerName.thumb => "thumb"
  | FingerName.fIndex => "index"
  | FingerName.middle => "middle"
  | FingerName.ring => "ring"
  | FingerName.pinky => "pinky"

/-- Label resolution (`recommend.ts` lines 156–157): the label of the first
catalog row with this size number, falling back to the stringified size
number when the row is missing or its label is null. -/
def sizeLabel (sizeRows : List NailSizeRow) (sizeNumber : ℤ) : String :=
  match sizeRows.find? (fun s => decide (s.sizeNumber = sizeNumber)) with
  | some row => row.label.getD (toString sizeNumber)
  | none => toString sizeNumber

/-- Failure modes of the per-finger loop (`recommend.ts` lines 168–190). -/
inductive FingerLoopError : Type
  | missingFinger (name : FingerName)
  | matcherFault

/-- The per-finger loop of the route: for each finger in the fixed order,
fail on absent measurement data, else run `applyRulesToFinger` on
`curve_adj_width_mm` (a `none` from the matcher models the thrown
`TypeError`) and record the `FingerResult`. -/
def buildPerFinger (fm : FingerName → Option FingerData) (rules : List SizeRule)
    (config : SizeRulesConfig) (sizeRows : List NailSizeRow) :
    List FingerName → Except FingerLoopError (List (FingerName × FingerResult))
  | [] => Except.ok []
  | n :: rest =>
    match fm n with
    | none => Except.error (FingerLoopError.missingFinger n)
    | some fd =>
      match applyRulesToFinger fd.curve_adj_width_mm n rules config with
      | none => Except.error FingerLoopError.matcherFault
      | some (size, fit) =>
        match buildPerFinger fm rules config sizeRows rest with
        | Except.error e => Except.error e
        | Except.ok tail =>
          Except.ok ((n, { size := size, size_label := sizeLabel sizeRows size,
                           width_mm := fd.curve_adj_width_mm, fit := fit }) :: tail)

/-- Object access `perFinger[n]` on the computed per-finger record. -/
def lookupFinger (perFinger : List (FingerName × FingerResult))
    (n : FingerName) : FingerResult :=
  ((perFinger.find? (fun p => decide (p.1 = n))).map Prod.snd).getD default

/-- The per-finger size a set assigns (`setMap` in `recommend.ts`). -/
def setSize (s : SizeSetRow) : FingerName → ℤ
  | FingerName.thumb => s.thumbSize
  | FingerName.fIndex => s.indexSize
  | FingerName.middle => s.middleSize
  | FingerName.ring => s.ringSize
  | FingerName.pinky => s.pinkySize

/-- One element of the `sets.map(...)` step (`recommend.ts` lines 202–212). -/
def mkEntry (perFinger : List (FingerName × FingerResult)) (s : SizeSetRow) :
    MatchEntry :=
  let diff := (fingerNames.filter
    (fun n => decide ((lookupFinger perFinger n).size ≠ setSize s n))).length
  { set_name := s.name, set_id := "set_" ++ toString s.id,
    exact_match := decide (diff = 0), diff := diff, internalId := s.id }

/-- The set-matching step (`recommend.ts` lines 201–214): map each set to its
entry, keep entries with at most two differing fingers, sort ascending by
`diff` (stable). -/
def rankSets (perFinger : List (FingerName × FingerResult))
    (sets : List SizeSetRow) : List MatchEntry :=
  List.insertionSort (fun a b => (a.diff : ℤ) - (b.diff : ℤ) ≤ 0)
    ((sets.map (mkEntry perFinger)).filter (fun s => decide (s.diff ≤ 2)))

/-- The size-profile string (`recommend.ts` line 193). -/
def sizeProfileOf (perFinger : List (FingerName × FingerResult)) : String :=
  String.intercalate "-" (fingerNames.map (fun n => toString (lookupFinger perFinger n).size))

/-- The `sizes` JSONB payload of the inserted row (`recommend.ts` lines
219–221). -/
def sizesJsonOf (perFinger : List (FingerName × FingerResult)) :
    List (FingerName × ℤ × String × FitLabel) :=
  fingerNames.map (fun n =>
    (n, (lookupFinger perFinger n).size, (lookupFinger perFinger n).size_label,
      (lookupFinger perFinger n).fit))

/-- The request body after JSON parsing: `Except.error ()` models a body that
is not valid JSON, the inner `Option` the presence of `measurement_id`. -/
def RecommendBody : Type := Except Unit (Option String)

/-- The rules query of the route (`recommend.ts` lines 123–127): all rules of
chart `'default'`, kept in the order the database returns them. -/
def fetchedRules (db : Db) : List SizeRule :=
  db.sizeRules.filter (fun r => decide (r.chartId = "default"))

/-- The config query with default substitution (`recommend.ts` lines
137–148). -/
def fetchedConfig (db : Db) : SizeRulesConfig :=
  (db.sizeRulesConfig.find? (fun c => decide (c.chartId = "default"))).getD
    defaultConfig

/-- The nail-size label query (`recommend.ts` lines 151–154). -/
def fetchedSizes (db : Db) : List NailSizeRow :=
  db.nailSizes.filter (fun s => decide (s.chartId = "default"))

/-- The size-set query (`recommend.ts` lines 196–199). -/
def fetchedSets (db : Db) : List SizeSetRow :=
  db.sizeSets.filter (fun s => decide (s.chartId = "default"))

/-- The row inserted into `recommendations` (`recommend.ts` lines 218–229);
`matchingSetId` is `matchingSets[0]?._id ?? null`. -/
def mkRecRow (mid : String) (perFinger : List (FingerName × FingerResult))
    (sets : List SizeSetRow) : RecommendationRow :=
  { measurementId := mid, chartId := "default",
    sizeProfile := sizeProfileOf perFinger, sizes := sizesJsonOf perFinger,
    matchingSetId := ((rankSets perFinger sets).head?).map (fun e => e.internalId) }

/-- The POST /v1/recommend handler (`recommend.ts` lines 100–238), as a pure
transformer of the database state. Returns the outcome and the new state;
the only state change the handler makes is the final insert into
`recommendations`. -/
def recommendPost (db : Db) (body : RecommendBody) : RouteOutcome × Db :=
  match body with
  | Except.error _ =>
    (RouteOutcome.clientError "validation_error" "Request body must be JSON", db)
  | Except.ok none =>
    (RouteOutcome.clientError "validation_error" "measurement_id is required", db)
  | Except.ok (some mid) =>
    -- 1. Fetch measurement
    match db.measurements.find? (fun m => decide (m.id = mid)) with
    | none => (RouteOutcome.clientError "not_found" "Measurement not found", db)
    | some measurement =>
      -- 2. Check rules exist
      if (fetchedRules db).isEmpty then
        (RouteOutcome.clientError "no_rules"
          "Size mapping rules have not been configured. Contact admin.", db)
      else
        -- 3.–5. Fetch config and labels, apply rules to each finger
        match buildPerFinger measurement.fingers (fetchedRules db)
            (fetchedConfig db) (fetchedSizes db) fingerNames with
        | Except.error (FingerLoopError.missingFinger n) =>
          (RouteOutcome.clientError "validation_error"
            ("Measurement missing data for finger: " ++ fingerString n), db)
        | Except.error FingerLoopError.matcherFault => (RouteOutcome.fault, db)
        | Except.ok perFinger =>
          -- 6.–8. Size profile, matching sets, stored row
          (RouteOutcome.ok
            { measurement_id := mid, size_profile := sizeProfileOf perFinger,
              per_finger := perFinger,
              matching_sets := rankSets perFinger (fetchedSets db) },
           { db with recommendations :=
              db.recommendations ++ [mkRecRow mid perFinger (fetchedSets db)] })

-- ── Specification-side descriptions of the rule order ────────────────────────

/-- The sort key the specification describes: priority descending (encoded as
negated priority ascending), finger-specific (tag 0) before `ALL` (tag 1) at
equal priority. -/
def ruleKey (r : SizeRule) : ℤ × ℕ :=
  (-(r.priority), if r.finger = RuleFinger.all then 1 else 0)

/-- Lexicographic comparison of sort keys. -/
def keyLE (x y : ℤ × ℕ) : Prop :=
  x.1 < y.1 ∨ (x.1 = y.1 ∧ x.2 ≤ y.2)

/-- Invariant of the nearest-rule accumulation loops: after scanning `seen`,
a `none` accumulator means no qualifying rule was seen, and a `some (r, d)`
accumulator means `r` is the first qualifying rule of minimal value among
`seen` and `d` its value. -/
def ScanInv (p : SizeRule → Bool) (v : SizeRule → ℚ) (seen : List SizeRule)
    (acc : Option (SizeRule × ℚ)) : Prop :=
  match acc with
  | none => ∀ x ∈ seen, p x = false
  | some (r, d) => d = v r ∧ p r = true ∧
      ∃ s₁ s₂, seen = s₁ ++ r :: s₂ ∧ (∀ x ∈ s₁, p x = true → v r < v x) ∧
        (∀ x ∈ s₂, p x = true → v r ≤ v x)

-- ── Concrete fixtures for witnesses and counterexamples ──────────────────────

/-- An `ALL` rule mapping widths 10–12 to size 9 at priority 0 (Scenario A of
the specification). -/
def ruleAll9 : SizeRule :=
  { chartId := "default", finger := RuleFinger.all, minWidthMm := 10,
    maxWidthMm := 12, mappedSize := 9, priority := 0 }

/-- A thumb-specific rule with the same range as `ruleAll9`, also at
priority 0, mapping to size 5. -/
def ruleThumb5 : SizeRule :=
  { chartId := "default", finger := RuleFinger.specific FingerName.thumb,
    minWidthMm := 10, maxWidthMm := 12, mappedSize := 5, priority := 0 }

/-- A thumb-specific rule for widths 10.5–11.5 at priority 1 mapping to
size 5 (Scenario B of the specification). -/
def ruleThumbPrio : SizeRule :=
  { chartId := "default", finger := RuleFinger.specific FingerName.thumb,
    minWidthMm := 21/2, maxWidthMm := 23/2, mappedSize := 5, priority := 1 }

/-- Finger measurement data with all widths 11 mm. -/
def fingerData11 : FingerData :=
  { width_mm := 11, length_mm := 20, curve_adj_width_mm := 11, confidence := 1 }

/-- A measurement with data for all five fingers. -/
def measAll : Measurement :=
  { id := "m1", fingers := fun _ => some fingerData11 }

/-- A measurement whose JSONB `fingers` object lacks the `index` entry. -/
def measNoIndex : Measurement :=
  { id := "m2",
    fingers := fun n => if n = FingerName.fIndex then none else some fingerData11 }

/-- A size set assigning size 9 to every finger. -/
def setNine : SizeSetRow :=
  { id := 1, chartId := "default", name := "Nine Set", thumbSize := 9,
    indexSize := 9, middleSize := 9, ringSize := 9, pinkySize := 9 }

/-- A size set differing from all-nines at the pinky only. -/
def setEight : SizeSetRow :=
  { id := 2, chartId := "default", name := "Mixed Set", thumbSize := 9,
    indexSize := 9, middleSize := 9, ringSize := 9, pinkySize := 8 }

/-- A size set differing from all-nines at three fingers. -/
def setFar : SizeSetRow :=
  { id := 3, chartId := "default", name := "Far Set", thumbSize := 1,
    indexSize := 1, middleSize := 1, ringSize := 9, pinkySize := 9 }

/-- A database with one rule, two measurements and three sets. -/
def dbMain : Db :=
  { measurements := [measAll, measNoIndex], sizeRules := [ruleAll9],
    sizeRulesConfig := [], nailSizes := [], sizeSets := [setFar, setEight, setNine],
    recommendations := [] }

/-- A database with a measurement but no size rules. -/
def dbNoRules : Db :=
  { measurements := [measAll], sizeRules := [], sizeRulesConfig := [],
    nailSizes := [], sizeSets := [], recommendations := [] }

/-- A completely empty database. -/
def dbEmpty : Db :=
  { measurements := [], sizeRules := [], sizeRulesConfig := [],
    nailSizes := [], sizeSets := [], recommendations := [] }

/-- A per-finger result record recommending size 9 for every finger. -/
def perFinger9 : List (FingerName × FingerResult) :=
  fingerNames.map (fun n =>
    (n, { size := 9, size_label := "9", width_mm := 11, fit := FitLabel.standard }))

/-- A matcher configuration with zero tolerance. -/
def configTol0 : SizeRulesConfig :=
  { chartId := "default", betweenSizes := BetweenSizes.size_down, toleranceMm := 0 }

/-- A database whose only size rule is thumb-specific, with a complete
measurement. -/
def dbThumbOnly : Db :=
  { measurements := [measAll], sizeRules := [ruleThumb5], sizeRulesConfig := [],
    nailSizes := [], sizeSets := [], recommendations := [] }

/-- A measurement whose JSONB `fingers` object lacks the `middle` entry. -/
def measNoMiddle : Measurement :=
  { id := "m3",
    fingers := fun n => if n = FingerName.middle then none else some fingerData11 }

/-- A database whose only size rule is thumb-specific, holding a measurement
that lacks its `middle` finger. -/
def dbThumbOnlyNoMiddle : Db :=
  { measurements := [measNoMiddle], sizeRules := [ruleThumb5],
    sizeRulesConfig := [], nailSizes := [], sizeSets := [],
    recommendations := [] }

-- ═══════════════════════ Theorems ═══════════════════════

-- ── Generic facts about stable insertion sort ────────────────────────────────

theorem pairwise_orderedInsert_of {α : Type} {r s : α → α → Prop} [DecidableRel r]
    {P : α → Prop}
    (hrs : ∀ a b, P a → P b → (r a b ↔ s a b))
    (htot : ∀ a b, P a → P b → s a b ∨ s b a)
    (htrans : ∀ a b c, P a → P b → P c → s a b → s b c → s a c)
    {a : α} (ha : P a) :
    ∀ {l : List α}, (∀ x ∈ l, P x) → l.Pairwise s → (l.orderedInsert r a).Pairwise s
  | [], _, _ => by simp
  | b :: l, hl, hp => by
    have hb : P b := hl b (List.mem_cons_self b l)
    have hl' : ∀ x ∈ l, P x := fun x hx => hl x (List.mem_cons_of_mem _ hx)
    have hp' := List.pairwise_cons.mp hp
    rw [List.orderedInsert]
    split_ifs with hab
    · refine List.Pairwise.cons ?_ hp
      intro x hx
      have hsab : s a b := (hrs a b ha hb).mp hab
      rcases List.mem_cons.mp hx with rfl | hx
      · exact hsab
      · exact htrans a b x ha hb (hl' x hx) hsab (hp'.1 x hx)
    · refine List.Pairwise.cons ?_
        (pairwise_orderedInsert_of hrs htot htrans ha hl' hp'.2)
      intro x hx
      rcases (List.mem_orderedInsert r).mp hx with rfl | hx
      · rcases htot x b ha hb with h | h
        · exact absurd ((hrs x b ha hb).mpr h) hab
        · exact h
      · exact hp'.1 x hx

theorem pairwise_insertionSort_of {α : Type} {r s : α → α → Prop} [DecidableRel r]
    {P : α → Prop}
    (hrs : ∀ a b, P a → P b → (r a b ↔ s a b))
    (htot : ∀ a b, P a → P b → s a b ∨ s b a)
    (htrans : ∀ a b c, P a → P b → P c → s a b → s b c → s a c) :
    ∀ {l : List α}, (∀ x ∈ l, P x) → (l.insertionSort r).Pairwise s
  | [], _ => by simp
  | b :: l, hl => by
    rw [List.insertionSort]
    refine pairwise_orderedInsert_of hrs htot htrans (hl b (List.mem_cons_self b l))
      (fun x hx => hl x (List.mem_cons_of_mem _ ((List.mem_insertionSort r).mp hx)))
      (pairwise_insertionSort_of hrs htot htrans
        (fun x hx => hl x (List.mem_cons_of_mem _ hx)))

theorem filter_key_orderedInsert {α κ : Type} [DecidableEq κ] {r : α → α → Prop}
    [DecidableRel r] {key : α → κ} {P : α → Prop}
    (hkey : ∀ a b, P a → P b → key a = key b → r a b)
    {a : α} (ha : P a) (k : κ) :
    ∀ {l : List α}, (∀ x ∈ l, P x) →
      (l.orderedInsert r a).filter (fun x => decide (key x = k)) =
        if key a = k then a :: l.filter (fun x => decide (key x = k))
        else l.filter (fun x => decide (key x = k))
  | [], _ => by
    by_cases hk : key a = k <;> simp [List.orderedInsert, List.filter, hk]
  | b :: l, hl => by
    have hb : P b := hl b (List.mem_cons_self b l)
    have hl' : ∀ x ∈ l, P x := fun x hx => hl x (List.mem_cons_of_mem _ hx)
    rw [List.orderedInsert]
    by_cases hab : r a b
    · rw [if_pos hab]
      by_cases hk : key a = k <;> simp [List.filter_cons, hk]
    · rw [if_neg hab]
      have hrec := filter_key_orderedInsert hkey ha k hl'
      by_cases hk : key a = k
      · have hbk : key b ≠ k := by
          intro hbk
          exact hab (hkey a b ha hb (hk.trans hbk.symm))
        simp [List.filter_cons, hk, hbk, hrec]
      · by_cases hbk : key b = k <;> simp [List.filter_cons, hk, hbk, hrec]

theorem filter_key_insertionSort {α κ : Type} [DecidableEq κ] {r : α → α → Prop}
    [DecidableRel r] {key : α → κ} {P : α → Prop}
    (hkey : ∀ a b, P a → P b → key a = key b → r a b) (k : κ) :
    ∀ {l : List α}, (∀ x ∈ l, P x) →
      (l.insertionSort r).filter (fun x => decide (key x = k)) =
        l.filter (fun x => decide (key x = k))
  | [], _ => rfl
  | b :: l, hl => by
    have hb : P b := hl b (List.mem_cons_self b l)
    have hl' : ∀ x ∈ l, P x := fun x hx => hl x (List.mem_cons_of_mem _ hx)
    rw [List.insertionSort]
    rw [filter_key_orderedInsert hkey hb k
      (fun x hx => hl' x ((List.mem_insertionSort r).mp hx))]
    rw [filter_key_insertionSort hkey k hl']
    by_cases hbk : key b = k <;> simp [List.filter_cons, hbk]

theorem orderedInsert_congr {α : Type} {r₁ r₂ : α → α → Prop}
    [DecidableRel r₁] [DecidableRel r₂] {a : α} :
    ∀ {l : List α}, (∀ b ∈ l, (r₁ a b ↔ r₂ a b)) →
      l.orderedInsert r₁ a = l.orderedInsert r₂ a
  | [], _ => rfl
  | b :: l, hl => by
    rw [List.orderedInsert, List.orderedInsert]
    by_cases h : r₁ a b
    · rw [if_pos h, if_pos ((hl b (List.mem_cons_self b l)).mp h)]
    · rw [if_neg h, if_neg (fun h2 => h ((hl b (List.mem_cons_self b l)).mpr h2))]
      rw [orderedInsert_congr (fun x hx => hl x (List.mem_cons_of_mem _ hx))]

theorem insertionSort_congr {α : Type} {r₁ r₂ : α → α → Prop}
    [DecidableRel r₁] [DecidableRel r₂] :
    ∀ {l : List α}, (∀ a ∈ l, ∀ b ∈ l, (r₁ a b ↔ r₂ a b)) →
      l.insertionSort r₁ = l.insertionSort r₂
  | [], _ => rfl
  | b :: l, hl => by
    rw [List.insertionSort, List.insertionSort]
    rw [insertionSort_congr (fun x hx y hy =>
      hl x (List.mem_cons_of_mem _ hx) y (List.mem_cons_of_mem _ hy))]
    exact orderedInsert_congr (fun x hx =>
      hl b (List.mem_cons_self b l) x
        (List.mem_cons_of_mem _ ((List.mem_insertionSort r₂).mp hx)))

-- ── The live comparator realises the specified key order ─────────────────────

theorem keyLE_total (x y : ℤ × ℕ) : keyLE x y ∨ keyLE y x := by
  obtain ⟨x1, x2⟩ := x
  obtain ⟨y1, y2⟩ := y
  unfold keyLE
  simp only []
  omega

theorem keyLE_trans (x y z : ℤ × ℕ) : keyLE x y → keyLE y z → keyLE x z := by
  obtain ⟨x1, x2⟩ := x
  obtain ⟨y1, y2⟩ := y
  obtain ⟨z1, z2⟩ := z
  unfold keyLE
  simp only []
  omega

theorem keyLE_of_eq {x y : ℤ × ℕ} (h : x = y) : keyLE x y := by
  subst h
  exact Or.inr ⟨rfl, le_refl _⟩

theorem ruleCompare_le_iff (fn : FingerName) (a b : SizeRule)
    (ha : fingerMatches fn a = true) (hb : fingerMatches fn b = true) :
    ruleCompare fn a b ≤ 0 ↔ keyLE (ruleKey a) (ruleKey b) := by
  unfold fingerMatches at ha hb
  simp only [Bool.or_eq_true, decide_eq_true_eq] at ha hb
  unfold ruleCompare ruleKey keyLE
  by_cases hpr : b.priority = a.priority
  · rw [if_neg (by simp [hpr])]
    rcases ha with ha | ha <;> rcases hb with hb | hb <;>
      simp [ha, hb, hpr]
  · rw [if_pos (by simp [hpr])]
    constructor
    · intro h
      refine Or.inl ?_
      omega
    · intro h
      rcases h with h | h
      · omega
      · exact absurd (by omega : b.priority = a.priority) hpr

-- ── The nearest-rule scan loops ──────────────────────────────────────────────

theorem scanInv_step (p : SizeRule → Bool) (v : SizeRule → ℚ)
    (seen : List SizeRule) (acc : Option (SizeRule × ℚ)) (x : SizeRule)
    (h : ScanInv p v seen acc) :
    ScanInv p v (seen ++ [x]) (scanFold p v acc x) := by
  cases acc with
  | none =>
    by_cases hp : p x = true
    · have hstep : scanFold p v none x = some (x, v x) := by
        simp [scanFold, hp]
      rw [hstep]
      refine ⟨rfl, hp, seen, [], by simp, ?_, by simp⟩
      intro y hy hpy
      rw [h y hy] at hpy
      cases hpy
    · have hpf : p x = false := by simpa using hp
      have hstep : scanFold p v none x = none := by
        simp [scanFold, hpf]
      rw [hstep]
      intro y hy
      rcases List.mem_append.mp hy with hy | hy
      · exact h y hy
      · rw [List.mem_singleton.mp hy]
        exact hpf
  | some rd =>
    obtain ⟨r, d⟩ := rd
    obtain ⟨hd, hpr, s₁, s₂, hseen, h₁, h₂⟩ := h
    subst hd
    by_cases hcond : p x = true ∧ v x < v r
    · have hstep : scanFold p v (some (r, v r)) x = some (x, v x) := by
        simp [scanFold, hcond.1, hcond.2]
      rw [hstep]
      refine ⟨rfl, hcond.1, seen, [], by simp, ?_, by simp⟩
      intro y hy hpy
      rw [hseen] at hy
      rcases List.mem_append.mp hy with hy | hy
      · exact lt_trans hcond.2 (h₁ y hy hpy)
      · rcases List.mem_cons.mp hy with rfl | hy
        · exact hcond.2
        · exact lt_of_lt_of_le hcond.2 (h₂ y hy hpy)
    · have hstep : scanFold p v (some (r, v r)) x = some (r, v r) := by
        unfold scanFold
        by_cases hpx : p x = true
        · have : ¬ v x < v r := fun hlt => hcond ⟨hpx, hlt⟩
          simp [hpx, this]
        · have hpf : p x = false := by simpa using hpx
          simp [hpf]
      rw [hstep]
      refine ⟨rfl, hpr, s₁, s₂ ++ [x], by rw [hseen]; simp, h₁, ?_⟩
      intro y hy hpy
      rcases List.mem_append.mp hy with hy | hy
      · exact h₂ y hy hpy
      · rw [List.mem_singleton.mp hy] at hpy ⊢
        by_cases hlt : v x < v r
        · exact absurd ⟨hpy, hlt⟩ hcond
        · exact le_of_not_lt hlt

theorem scanInv_foldl (p : SizeRule → Bool) (v : SizeRule → ℚ) :
    ∀ (l seen : List SizeRule) (acc : Option (SizeRule × ℚ)),
      ScanInv p v seen acc → ScanInv p v (seen ++ l) (l.foldl (scanFold p v) acc)
  | [], seen, acc, h => by simpa using h
  | x :: l, seen, acc, h => by
    rw [List.foldl_cons]
    have h2 := scanInv_foldl p v l (seen ++ [x]) (scanFold p v acc x)
      (scanInv_step p v seen acc x h)
    simpa [List.append_assoc] using h2

theorem scanInv_result (p : SizeRule → Bool) (v : SizeRule → ℚ)
    (l : List SizeRule) :
    ScanInv p v l (l.foldl (scanFold p v) none) := by
  have h := scanInv_foldl p v l [] none (by intro x hx; cases hx)
  simpa using h

-- ── Branch lemmas for the matcher ────────────────────────────────────────────

theorem mem_sortRelevant {fn : FingerName} {rules : List SizeRule} {x : SizeRule} :
    x ∈ sortRelevant fn rules ↔ x ∈ rules ∧ fingerMatches fn x = true := by
  unfold sortRelevant
  rw [List.mem_insertionSort, List.mem_filter]

theorem applyRules_exact {w : ℚ} {fn : FingerName} {rules : List SizeRule}
    (cfg : SizeRulesConfig) {r₀ : SizeRule}
    (hfind : (sortRelevant fn rules).find? (containsWidth w) = some r₀) :
    applyRulesToFinger w fn rules cfg = some (r₀.mappedSize, exactFit w r₀) := by
  unfold applyRulesToFinger
  rw [hfind]

theorem exactFit_eq_spec {w : ℚ} {r : SizeRule} (hc : containsWidth w r = true) :
    ∃ pos : ℚ,
      pos = (if r.maxWidthMm - r.minWidthMm = 0 then 1/2
             else (w - r.minWidthMm) / (r.maxWidthMm - r.minWidthMm))
      ∧ exactFit w r = (if pos < 33/100 then FitLabel.snug
          else if pos > 67/100 then FitLabel.loose else FitLabel.standard) := by
  unfold containsWidth at hc
  simp only [Bool.and_eq_true, decide_eq_true_eq] at hc
  have hle : (0:ℚ) ≤ r.maxWidthMm - r.minWidthMm := by linarith [hc.1, hc.2]
  refine ⟨positionOf w r, ?_, rfl⟩
  unfold positionOf
  by_cases h0 : r.maxWidthMm - r.minWidthMm = 0
  · rw [if_pos h0, if_neg (by rw [h0]; exact lt_irrefl 0)]
  · rw [if_neg h0, if_pos (lt_of_le_of_ne hle (fun h => h0 h.symm))]

theorem exists_find?_contains {w : ℚ} {fn : FingerName} {rules : List SizeRule}
    (hex : ∃ r ∈ rules, fingerMatches fn r = true ∧ containsWidth w r = true) :
    ∃ r₀, (sortRelevant fn rules).find? (containsWidth w) = some r₀
      ∧ containsWidth w r₀ = true := by
  obtain ⟨r, hr, hm, hc⟩ := hex
  have hmem : r ∈ sortRelevant fn rules := mem_sortRelevant.mpr ⟨hr, hm⟩
  have hsome : ((sortRelevant fn rules).find? (containsWidth w)).isSome :=
    List.find?_isSome.mpr ⟨r, hmem, hc⟩
  obtain ⟨r₀, hr₀⟩ := Option.isSome_iff_exists.mp hsome
  exact ⟨r₀, hr₀, List.find?_some hr₀⟩

theorem applyRules_tolerance {w : ℚ} {fn : FingerName} {rules : List SizeRule}
    {cfg : SizeRulesConfig} {r : SizeRule} {d : ℚ}
    (hfind : (sortRelevant fn rules).find? (containsWidth w) = none)
    (hfold : (sortRelevant fn rules).foldl
        (scanFold (fun r => decide (ruleDist w r ≤ cfg.toleranceMm)) (ruleDist w))
        none = some (r, d)) :
    applyRulesToFinger w fn rules cfg
      = some (r.mappedSize,
          if cfg.betweenSizes = BetweenSizes.size_down then FitLabel.snug
          else FitLabel.loose) := by
  unfold applyRulesToFinger
  rw [hfind, hfold]

theorem applyRules_lastResort {w : ℚ} {fn : FingerName} {rules : List SizeRule}
    {cfg : SizeRulesConfig} {r : SizeRule} {d : ℚ}
    (hfind : (sortRelevant fn rules).find? (containsWidth w) = none)
    (hfold : (sortRelevant fn rules).foldl
        (scanFold (fun r => decide (ruleDist w r ≤ cfg.toleranceMm)) (ruleDist w))
        none = none)
    (hlast : (sortRelevant fn rules).foldl (scanFold (fun _ => true) (ruleDist w))
        none = some (r, d)) :
    applyRulesToFinger w fn rules cfg = some (r.mappedSize, FitLabel.standard) := by
  unfold applyRulesToFinger
  rw [hfind, hfold, hlast]

theorem applyRules_isSome {w : ℚ} {fn : FingerName} {rules : List SizeRule}
    (cfg : SizeRulesConfig)
    (hne : rules.filter (fingerMatches fn) ≠ []) :
    ∃ s fit, applyRulesToFinger w fn rules cfg = some (s, fit) := by
  have hne2 : sortRelevant fn rules ≠ [] := by
    intro h
    apply hne
    have hp : (sortRelevant fn rules).Perm (rules.filter (fingerMatches fn)) :=
      List.perm_insertionSort _ _
    rw [h] at hp
    exact hp.symm.eq_nil
  obtain ⟨x, hx⟩ := List.exists_mem_of_ne_nil _ hne2
  unfold applyRulesToFinger
  cases hfind : (sortRelevant fn rules).find? (containsWidth w) with
  | some r₀ => exact ⟨r₀.mappedSize, exactFit w r₀, rfl⟩
  | none =>
    cases hfold : (sortRelevant fn rules).foldl
        (scanFold (fun r => decide (ruleDist w r ≤ cfg.toleranceMm)) (ruleDist w))
        none with
    | some rd =>
      obtain ⟨r, d⟩ := rd
      exact ⟨r.mappedSize, _, rfl⟩
    | none =>
      cases hlast : (sortRelevant fn rules).foldl
          (scanFold (fun _ => true) (ruleDist w)) none with
      | some rd =>
        obtain ⟨r, d⟩ := rd
        exact ⟨r.mappedSize, FitLabel.standard, rfl⟩
      | none =>
        have hinv := scanInv_result (fun _ => true) (ruleDist w) (sortRelevant fn rules)
        rw [hlast] at hinv
        exact absurd (hinv x hx) (by simp)

-- ── Claim C1 ─────────────────────────────────────────────────────────────────

/-- C1: for every width, finger name, rule list whose finger/ALL-filtered
sublist contains a rule whose inclusive range holds the width, and config,
`applyRulesToFinger` returns the mapped size of the first containing rule in
the order priority-descending, finger-specific-before-ALL at equal priority,
original order otherwise (the sorted list is a permutation of the filtered
list, is sorted by that key, and preserves the filtered order inside every
key class), never a fallback result, and its fit is snug below position
0.33, loose above 0.67, standard otherwise, with position
`(w − min)/(max − min)` taken as 0.5 on a zero-width range. -/
theorem c1_exact_match_precedence (w : ℚ) (fn : FingerName)
    (rules : List SizeRule) (cfg : SizeRulesConfig)
    (hex : ∃ r ∈ rules, fingerMatches fn r = true ∧ containsWidth w r = true) :
    (sortRelevant fn rules).Perm (rules.filter (fingerMatches fn))
    ∧ (sortRelevant fn rules).Pairwise (fun a b => keyLE (ruleKey a) (ruleKey b))
    ∧ (∀ k : ℤ × ℕ, (sortRelevant fn rules).filter (fun r => decide (ruleKey r = k))
        = (rules.filter (fingerMatches fn)).filter (fun r => decide (ruleKey r = k)))
    ∧ ∃ r₀ pos, (sortRelevant fn rules).find? (containsWidth w) = some r₀
        ∧ pos = (if r₀.maxWidthMm - r₀.minWidthMm = 0 then (1:ℚ)/2
                 else (w - r₀.minWidthMm) / (r₀.maxWidthMm - r₀.minWidthMm))
        ∧ applyRulesToFinger w fn rules cfg
          = some (r₀.mappedSize,
              if pos < 33/100 then FitLabel.snug
              else if pos > 67/100 then FitLabel.loose
              else FitLabel.standard) := by
  refine ⟨List.perm_insertionSort _ _, ?_, ?_, ?_⟩
  · exact pairwise_insertionSort_of
      (fun a b ha hb => ruleCompare_le_iff fn a b ha hb)
      (fun a b _ _ => keyLE_total _ _)
      (fun a b c _ _ _ hab hbc => keyLE_trans _ _ _ hab hbc)
      (fun x hx => (List.mem_filter.mp hx).2)
  · intro k
    exact filter_key_insertionSort
      (fun a b ha hb h => (ruleCompare_le_iff fn a b ha hb).mpr (keyLE_of_eq h))
      k (fun x hx => (List.mem_filter.mp hx).2)
  · obtain ⟨r₀, hfind, hc⟩ := exists_find?_contains hex
    obtain ⟨pos, hpos, hfit⟩ := exactFit_eq_spec hc
    refine ⟨r₀, pos, hfind, hpos, ?_⟩
    rw [applyRules_exact cfg hfind, hfit]

/-- Witness for C1 at Scenario B of the specification: rules
`{ALL, 10–12, size 9, prio 0}` and `{thumb, 10.5–11.5, size 5, prio 1}`,
finger thumb, width 11. -/
theorem c1_exact_match_precedence_witness :
    (∃ r ∈ [ruleAll9, ruleThumbPrio], fingerMatches FingerName.thumb r = true
        ∧ containsWidth 11 r = true)
    ∧ ((sortRelevant FingerName.thumb [ruleAll9, ruleThumbPrio]).Perm
          ([ruleAll9, ruleThumbPrio].filter (fingerMatches FingerName.thumb))
      ∧ (sortRelevant FingerName.thumb [ruleAll9, ruleThumbPrio]).Pairwise
          (fun a b => keyLE (ruleKey a) (ruleKey b))
      ∧ (∀ k : ℤ × ℕ, (sortRelevant FingerName.thumb
              [ruleAll9, ruleThumbPrio]).filter (fun r => decide (ruleKey r = k))
          = ([ruleAll9, ruleThumbPrio].filter
              (fingerMatches FingerName.thumb)).filter
                (fun r => decide (ruleKey r = k)))
      ∧ ∃ r₀ pos, (sortRelevant FingerName.thumb
            [ruleAll9, ruleThumbPrio]).find? (containsWidth 11) = some r₀
          ∧ pos = (if r₀.maxWidthMm - r₀.minWidthMm = 0 then (1:ℚ)/2
                   else (11 - r₀.minWidthMm) / (r₀.maxWidthMm - r₀.minWidthMm))
          ∧ applyRulesToFinger 11 FingerName.thumb [ruleAll9, ruleThumbPrio]
              defaultConfig
            = some (r₀.mappedSize,
                if pos < 33/100 then FitLabel.snug
                else if pos > 67/100 then FitLabel.loose
                else FitLabel.standard)) :=
  ⟨⟨ruleAll9, by decide, by decide, by decide⟩,
   c1_exact_match_precedence 11 FingerName.thumb [ruleAll9, ruleThumbPrio]
     defaultConfig ⟨ruleAll9, by decide, by decide, by decide⟩⟩

-- ── Claim C3 ─────────────────────────────────────────────────────────────────

/-- C3 counterexample: a chart can hold at least one size rule (here a single
thumb-specific rule, so the pipeline's only emptiness check passes) while
`applyRulesToFinger` still fails for a finger no rule applies to: for the
index finger the filtered list is empty and the source throws a `TypeError`
(`none` in the embedding), and the whole request faults. -/
theorem c3_totality_counterexample :
    ([ruleThumb5] : List SizeRule) ≠ []
    ∧ applyRulesToFinger 11 FingerName.fIndex [ruleThumb5] defaultConfig = none
    ∧ (recommendPost dbThumbOnly (Except.ok (some "m1"))).1 = RouteOutcome.fault := by
  refine ⟨by decide, by decide, ?_⟩
  rfl

/-- C3 amended: `applyRulesToFinger` returns a size and fit for every width
whenever the rule list filtered for the given finger (finger-specific or ALL)
is non-empty; the chart-level non-emptiness check alone does not suffice. -/
theorem c3_totality_amended (w : ℚ) (fn : FingerName) (rules : List SizeRule)
    (cfg : SizeRulesConfig) (hne : rules.filter (fingerMatches fn) ≠ []) :
    ∃ s fit, applyRulesToFinger w fn rules cfg = some (s, fit) :=
  applyRules_isSome cfg hne

/-- Witness for the amended C3: a thumb-specific rule list is non-empty when
filtered for the thumb, and the matcher returns a result there. -/
theorem c3_totality_amended_witness :
    ([ruleThumb5].filter (fingerMatches FingerName.thumb) ≠ [])
    ∧ ∃ s fit, applyRulesToFinger 14 FingerName.thumb [ruleThumb5] defaultConfig
        = some (s, fit) :=
  ⟨by decide,
   c3_totality_amended 14 FingerName.thumb [ruleThumb5] defaultConfig (by decide)⟩

-- ── Claims C4, C5, C10 ───────────────────────────────────────────────────────

theorem contains_of_dist_zero {w : ℚ} {r : SizeRule}
    (hlt : r.minWidthMm ≤ r.maxWidthMm) (h0 : ruleDist w r = 0) :
    containsWidth w r = true := by
  unfold ruleDist at h0
  unfold containsWidth
  simp only [Bool.and_eq_true, decide_eq_true_eq]
  have habs : |w - r.minWidthMm| = 0 ∨ |w - r.maxWidthMm| = 0 := by
    rcases le_total |w - r.minWidthMm| |w - r.maxWidthMm| with h | h
    · exact Or.inl (by rw [min_eq_left h] at h0; exact h0)
    · exact Or.inr (by rw [min_eq_right h] at h0; exact h0)
  rcases habs with h | h
  · have : w = r.minWidthMm := by
      have := abs_eq_zero.mp h
      linarith
    constructor <;> [exact le_of_eq this.symm; exact this ▸ hlt]
  · have : w = r.maxWidthMm := by
      have := abs_eq_zero.mp h
      linarith
    constructor <;> [exact this ▸ hlt; exact le_of_eq this]

theorem ruleDist_nonneg (w : ℚ) (r : SizeRule) : 0 ≤ ruleDist w r :=
  le_min (abs_nonneg _) (abs_nonneg _)

theorem find?_contains_eq_none {w : ℚ} {fn : FingerName} {rules : List SizeRule}
    (hno : ∀ r ∈ rules, fingerMatches fn r = true → ¬ containsWidth w r = true) :
    (sortRelevant fn rules).find? (containsWidth w) = none :=
  List.find?_eq_none.mpr (fun x hx =>
    hno x (mem_sortRelevant.mp hx).1 (mem_sortRelevant.mp hx).2)

/-- C4: for every width contained in no applicable rule's inclusive range, if
some applicable rule is within `toleranceMm` of a range boundary, the matcher
returns the mapped size of the within-tolerance rule of smallest boundary
distance, ties going to the earlier rule of the sorted filtered list, with
fit snug under the `size_down` policy and loose otherwise. -/
theorem c4_tolerance_fallback (w : ℚ) (fn : FingerName) (rules : List SizeRule)
    (cfg : SizeRulesConfig)
    (hno : ∀ r ∈ rules, fingerMatches fn r = true → ¬ containsWidth w r = true)
    (htol : ∃ r ∈ rules, fingerMatches fn r = true
        ∧ ruleDist w r ≤ cfg.toleranceMm) :
    ∃ r s₁ s₂, sortRelevant fn rules = s₁ ++ r :: s₂
      ∧ ruleDist w r ≤ cfg.toleranceMm
      ∧ (∀ x ∈ s₁, ruleDist w x ≤ cfg.toleranceMm → ruleDist w r < ruleDist w x)
      ∧ (∀ x ∈ sortRelevant fn rules, ruleDist w x ≤ cfg.toleranceMm →
           ruleDist w r ≤ ruleDist w x)
      ∧ applyRulesToFinger w fn rules cfg
        = some (r.mappedSize,
            if cfg.betweenSizes = BetweenSizes.size_down then FitLabel.snug
            else FitLabel.loose) := by
  have hfind := find?_contains_eq_none hno
  have hinv := scanInv_result
    (fun r => decide (ruleDist w r ≤ cfg.toleranceMm)) (ruleDist w)
    (sortRelevant fn rules)
  cases hfold : (sortRelevant fn rules).foldl
      (scanFold (fun r => decide (ruleDist w r ≤ cfg.toleranceMm)) (ruleDist w))
      none with
  | none =>
    rw [hfold] at hinv
    obtain ⟨r, hr, hm, hd⟩ := htol
    have hmem : r ∈ sortRelevant fn rules := mem_sortRelevant.mpr ⟨hr, hm⟩
    have := hinv r hmem
    simp only [decide_eq_false_iff_not] at this
    exact absurd hd this
  | some rd =>
    obtain ⟨r, d⟩ := rd
    rw [hfold] at hinv
    obtain ⟨hd, hpr, s₁, s₂, hL, h₁, h₂⟩ := hinv
    simp only [decide_eq_true_eq] at hpr
    refine ⟨r, s₁, s₂, hL, hpr, ?_, ?_, applyRules_tolerance hfind hfold⟩
    · intro x hx hle
      exact h₁ x hx (by simpa using hle)
    · intro x hx hle
      rw [hL] at hx
      rcases List.mem_append.mp hx with hx | hx
      · exact le_of_lt (h₁ x hx (by simpa using hle))
      · rcases List.mem_cons.mp hx with rfl | hx
        · exact le_refl _
        · exact h₂ x hx (by simpa using hle)

/-- Witness for C4 at Scenario C of the specification: rule
`{ALL, 10–12, size 9}`, width 12.2, tolerance 0.3 (distance 0.2). -/
theorem c4_tolerance_fallback_witness :
    (∀ r ∈ [ruleAll9], fingerMatches FingerName.thumb r = true →
        ¬ containsWidth (61/5) r = true)
    ∧ (∃ r ∈ [ruleAll9], fingerMatches FingerName.thumb r = true
        ∧ ruleDist (61/5) r ≤ defaultConfig.toleranceMm)
    ∧ ∃ r s₁ s₂, sortRelevant FingerName.thumb [ruleAll9] = s₁ ++ r :: s₂
      ∧ ruleDist (61/5) r ≤ defaultConfig.toleranceMm
      ∧ (∀ x ∈ s₁, ruleDist (61/5) x ≤ defaultConfig.toleranceMm →
           ruleDist (61/5) r < ruleDist (61/5) x)
      ∧ (∀ x ∈ sortRelevant FingerName.thumb [ruleAll9],
           ruleDist (61/5) x ≤ defaultConfig.toleranceMm →
           ruleDist (61/5) r ≤ ruleDist (61/5) x)
      ∧ applyRulesToFinger (61/5) FingerName.thumb [ruleAll9] defaultConfig
        = some (r.mappedSize,
            if defaultConfig.betweenSizes = BetweenSizes.size_down
            then FitLabel.snug else FitLabel.loose) := by
  have hno : ∀ r ∈ [ruleAll9], fingerMatches FingerName.thumb r = true →
      ¬ containsWidth (61/5) r = true := by
    intro r hr hm
    rcases List.mem_singleton.mp hr with rfl
    norm_num [containsWidth, ruleAll9]
  have hd : ruleDist (61/5) ruleAll9 ≤ defaultConfig.toleranceMm := by
    norm_num [ruleDist, ruleAll9, defaultConfig, min_def, abs_of_nonneg]
  have htol : ∃ r ∈ [ruleAll9], fingerMatches FingerName.thumb r = true
      ∧ ruleDist (61/5) r ≤ defaultConfig.toleranceMm :=
    ⟨ruleAll9, List.mem_singleton_self _, by decide, hd⟩
  exact ⟨hno, htol,
    c4_tolerance_fallback (61/5) FingerName.thumb [ruleAll9] defaultConfig hno htol⟩

/-- C5: for every width contained in no applicable rule's range and within
tolerance of none, the matcher returns the mapped size of the applicable rule
of globally smallest boundary distance (the earliest such rule of the sorted
filtered list) with fit standard, so a result exists whenever the filtered
list is non-empty. -/
theorem c5_last_resort (w : ℚ) (fn : FingerName) (rules : List SizeRule)
    (cfg : SizeRulesConfig)
    (hno : ∀ r ∈ rules, fingerMatches fn r = true → ¬ containsWidth w r = true)
    (hfar : ∀ r ∈ rules, fingerMatches fn r = true →
        ¬ ruleDist w r ≤ cfg.toleranceMm)
    (hne : rules.filter (fingerMatches fn) ≠ []) :
    ∃ r s₁ s₂, sortRelevant fn rules = s₁ ++ r :: s₂
      ∧ (∀ x ∈ s₁, ruleDist w r < ruleDist w x)
      ∧ (∀ x ∈ sortRelevant fn rules, ruleDist w r ≤ ruleDist w x)
      ∧ applyRulesToFinger w fn rules cfg
        = some (r.mappedSize, FitLabel.standard) := by
  have hfind := find?_contains_eq_none hno
  have hfold : (sortRelevant fn rules).foldl
      (scanFold (fun r => decide (ruleDist w r ≤ cfg.toleranceMm)) (ruleDist w))
      none = none := by
    cases hfold2 : (sortRelevant fn rules).foldl
        (scanFold (fun r => decide (ruleDist w r ≤ cfg.toleranceMm))
          (ruleDist w)) none with
    | none => rfl
    | some rd =>
      obtain ⟨r, d⟩ := rd
      have hinv := scanInv_result
        (fun r => decide (ruleDist w r ≤ cfg.toleranceMm)) (ruleDist w)
        (sortRelevant fn rules)
      rw [hfold2] at hinv
      obtain ⟨-, hpr, s₁, s₂, hL, -, -⟩ := hinv
      simp only [decide_eq_true_eq] at hpr
      have hmem : r ∈ sortRelevant fn rules := by
        rw [hL]
        exact List.mem_append.mpr (Or.inr (List.mem_cons_self r s₂))
      have hrm := mem_sortRelevant.mp hmem
      exact absurd hpr (hfar r hrm.1 hrm.2)
  have hinvL := scanInv_result (fun _ => true) (ruleDist w) (sortRelevant fn rules)
  cases hlast : (sortRelevant fn rules).foldl
      (scanFold (fun _ => true) (ruleDist w)) none with
  | none =>
    rw [hlast] at hinvL
    have hne2 : sortRelevant fn rules ≠ [] := by
      intro h
      apply hne
      have hp : (sortRelevant fn rules).Perm (rules.filter (fingerMatches fn)) :=
        List.perm_insertionSort _ _
      rw [h] at hp
      exact hp.symm.eq_nil
    obtain ⟨x, hx⟩ := List.exists_mem_of_ne_nil _ hne2
    exact absurd (hinvL x hx) (by simp)
  | some rd =>
    obtain ⟨r, d⟩ := rd
    rw [hlast] at hinvL
    obtain ⟨hd, -, s₁, s₂, hL, h₁, h₂⟩ := hinvL
    refine ⟨r, s₁, s₂, hL, fun x hx => h₁ x hx rfl, ?_,
      applyRules_lastResort hfind hfold hlast⟩
    intro x hx
    rw [hL] at hx
    rcases List.mem_append.mp hx with hx | hx
    · exact le_of_lt (h₁ x hx rfl)
    · rcases List.mem_cons.mp hx with rfl | hx
      · exact le_refl _
      · exact h₂ x hx rfl

/-- Witness for C5: rule `{ALL, 10–12, size 9}` with zero tolerance and
width 13 (distance 1, outside tolerance) still yields size 9 with fit
standard. -/
theorem c5_last_resort_witness :
    (∀ r ∈ [ruleAll9], fingerMatches FingerName.thumb r = true →
        ¬ containsWidth 13 r = true)
    ∧ (∀ r ∈ [ruleAll9], fingerMatches FingerName.thumb r = true →
        ¬ ruleDist 13 r ≤ configTol0.toleranceMm)
    ∧ ([ruleAll9].filter (fingerMatches FingerName.thumb) ≠ [])
    ∧ ∃ r s₁ s₂, sortRelevant FingerName.thumb [ruleAll9] = s₁ ++ r :: s₂
      ∧ (∀ x ∈ s₁, ruleDist 13 r < ruleDist 13 x)
      ∧ (∀ x ∈ sortRelevant FingerName.thumb [ruleAll9],
           ruleDist 13 r ≤ ruleDist 13 x)
      ∧ applyRulesToFinger 13 FingerName.thumb [ruleAll9] configTol0
        = some (r.mappedSize, FitLabel.standard) := by
  have hno : ∀ r ∈ [ruleAll9], fingerMatches FingerName.thumb r = true →
      ¬ containsWidth 13 r = true := by
    intro r hr hm
    rcases List.mem_singleton.mp hr with rfl
    norm_num [containsWidth, ruleAll9]
  have hfar : ∀ r ∈ [ruleAll9], fingerMatches FingerName.thumb r = true →
      ¬ ruleDist 13 r ≤ configTol0.toleranceMm := by
    intro r hr hm
    rcases List.mem_singleton.mp hr with rfl
    norm_num [ruleDist, ruleAll9, configTol0, min_def, abs_of_nonneg]
  exact ⟨hno, hfar, by decide,
    c5_last_resort 13 FingerName.thumb [ruleAll9] configTol0 hno hfar (by decide)⟩

/-- C10: under the rule invariant `minWidthMm < maxWidthMm`, an applicable
rule at boundary distance 0 from the width is a rule whose inclusive range
contains the width, so the exact-match branch already returns; consequently
with `toleranceMm = 0` the tolerance loop selects no rule on any non-exact
width, and a non-exact match against a non-empty filtered list falls to the
last-resort branch with fit standard. -/
theorem c10_tolerance_unreachable_at_zero (w : ℚ) (fn : FingerName)
    (rules : List SizeRule) (cfg : SizeRulesConfig)
    (hlt : ∀ r ∈ rules, r.minWidthMm < r.maxWidthMm) :
    (∀ r ∈ rules, fingerMatches fn r = true → ruleDist w r = 0 →
       containsWidth w r = true
       ∧ ∃ r₀, (sortRelevant fn rules).find? (containsWidth w) = some r₀
           ∧ applyRulesToFinger w fn rules cfg
             = some (r₀.mappedSize, exactFit w r₀))
    ∧ (cfg.toleranceMm = 0 →
       (sortRelevant fn rules).find? (containsWidth w) = none →
       (sortRelevant fn rules).foldl
           (scanFold (fun r => decide (ruleDist w r ≤ cfg.toleranceMm))
             (ruleDist w)) none = none
       ∧ (rules.filter (fingerMatches fn) ≠ [] →
           ∃ r : SizeRule, applyRulesToFinger w fn rules cfg
             = some (r.mappedSize, FitLabel.standard))) := by
  constructor
  · intro r hr hm h0
    have hc : containsWidth w r = true :=
      contains_of_dist_zero (le_of_lt (hlt r hr)) h0
    obtain ⟨r₀, hfind, -⟩ := exists_find?_contains ⟨r, hr, hm, hc⟩
    exact ⟨hc, r₀, hfind, applyRules_exact cfg hfind⟩
  · intro htol hfind
    have hnc : ∀ x ∈ sortRelevant fn rules, ¬ containsWidth w x = true := by
      intro x hx
      exact List.find?_eq_none.mp hfind x hx
    have hfold : (sortRelevant fn rules).foldl
        (scanFold (fun r => decide (ruleDist w r ≤ cfg.toleranceMm))
          (ruleDist w)) none = none := by
      cases hfold2 : (sortRelevant fn rules).foldl
          (scanFold (fun r => decide (ruleDist w r ≤ cfg.toleranceMm))
            (ruleDist w)) none with
      | none => rfl
      | some rd =>
        obtain ⟨r, d⟩ := rd
        have hinv := scanInv_result
          (fun r => decide (ruleDist w r ≤ cfg.toleranceMm)) (ruleDist w)
          (sortRelevant fn rules)
        rw [hfold2] at hinv
        obtain ⟨-, hpr, s₁, s₂, hL, -, -⟩ := hinv
        simp only [decide_eq_true_eq] at hpr
        rw [htol] at hpr
        have h0 : ruleDist w r = 0 := le_antisymm hpr (ruleDist_nonneg w r)
        have hmem : r ∈ sortRelevant fn rules := by
          rw [hL]
          exact List.mem_append.mpr (Or.inr (List.mem_cons_self r s₂))
        have hrm := mem_sortRelevant.mp hmem
        have hc : containsWidth w r = true :=
          contains_of_dist_zero (le_of_lt (hlt r hrm.1)) h0
        exact absurd hc (hnc r hmem)
    refine ⟨hfold, ?_⟩
    intro hne
    have hne2 : sortRelevant fn rules ≠ [] := by
      intro h
      apply hne
      have hp : (sortRelevant fn rules).Perm (rules.filter (fingerMatches fn)) :=
        List.perm_insertionSort _ _
      rw [h] at hp
      exact hp.symm.eq_nil
    have hinvL := scanInv_result (fun _ => true) (ruleDist w)
      (sortRelevant fn rules)
    cases hlast : (sortRelevant fn rules).foldl
        (scanFold (fun _ => true) (ruleDist w)) none with
    | none =>
      rw [hlast] at hinvL
      obtain ⟨x, hx⟩ := List.exists_mem_of_ne_nil _ hne2
      exact absurd (hinvL x hx) (by simp)
    | some rd =>
      obtain ⟨r, d⟩ := rd
      exact ⟨r, applyRules_lastResort hfind hfold hlast⟩

/-- Witness for C10: the single rule `{ALL, 10–12, size 9}` under a
zero-tolerance config, at the non-exact width 13, selects no tolerance rule
and resolves through the last-resort branch. -/
theorem c10_tolerance_unreachable_at_zero_witness :
    (∀ r ∈ [ruleAll9], r.minWidthMm < r.maxWidthMm)
    ∧ configTol0.toleranceMm = 0
    ∧ (sortRelevant FingerName.thumb [ruleAll9]).find? (containsWidth 13) = none
    ∧ (sortRelevant FingerName.thumb [ruleAll9]).foldl
        (scanFold (fun r => decide (ruleDist 13 r ≤ configTol0.toleranceMm))
          (ruleDist 13)) none = none
    ∧ ([ruleAll9].filter (fingerMatches FingerName.thumb) ≠ [] →
        ∃ r : SizeRule, applyRulesToFinger 13 FingerName.thumb [ruleAll9] configTol0
          = some (r.mappedSize, FitLabel.standard)) := by
  have hlt : ∀ r ∈ [ruleAll9], r.minWidthMm < r.maxWidthMm := by
    intro r hr
    rcases List.mem_singleton.mp hr with rfl
    norm_num [ruleAll9]
  have hfind : (sortRelevant FingerName.thumb [ruleAll9]).find?
      (containsWidth 13) = none := by
    apply find?_contains_eq_none
    intro r hr hm
    rcases List.mem_singleton.mp hr with rfl
    norm_num [containsWidth, ruleAll9]
  have h := (c10_tolerance_unreachable_at_zero 13 FingerName.thumb [ruleAll9]
    configTol0 hlt).2 rfl hfind
  exact ⟨hlt, rfl, hfind, h.1, h.2⟩

-- ── Claim C6 ─────────────────────────────────────────────────────────────────

/-- The engine tests a comparator result only as `< 0`, and on that test the
preview comparator (oriented the way insertion asks, second-versus-first)
agrees with the live comparator's `≤ 0`: the branches on which the two
comparators differ return `0` versus `1`, both non-negative. -/
theorem previewCompare_lt_iff (fn : FingerName) (a b : SizeRule) :
    (¬(previewCompare fn b a < 0)) ↔ (ruleCompare fn a b ≤ 0) := by
  unfold previewCompare ruleCompare
  by_cases hpr : b.priority = a.priority
  · have hp1 : ¬(a.priority ≠ b.priority) := by omega
    have hp2 : ¬(b.priority ≠ a.priority) := by omega
    rw [if_neg hp1, if_neg hp2]
    by_cases h1 : b.finger = RuleFinger.specific fn ∧ a.finger = RuleFinger.all
    · rw [if_pos h1]
      have h2 : ¬(a.finger = RuleFinger.specific fn
          ∧ b.finger = RuleFinger.all) := by
        intro h2
        rw [h1.2] at h2
        simp at h2
      rw [if_neg h2]
      rw [if_pos (⟨h1.2, h1.1⟩ : a.finger = RuleFinger.all
        ∧ b.finger = RuleFinger.specific fn)]
      constructor
      · intro h
        exact absurd (by omega : (-1 : ℤ) < 0) h
      · intro h
        omega
    · rw [if_neg h1]
      by_cases h3 : a.finger = RuleFinger.specific fn ∧ b.finger = RuleFinger.all
      · rw [if_pos h3]
        constructor <;> (intro h2; omega)
      · rw [if_neg h3, if_neg (fun h4 => h1 ⟨h4.2, h4.1⟩)]
        constructor <;> (intro h2; omega)
  · have hp1 : a.priority ≠ b.priority := by omega
    have hp2 : b.priority ≠ a.priority := by omega
    rw [if_pos hp1, if_pos hp2]
    constructor <;> (intro h2; omega)

/-- The preview's sort coincides with the live matcher's: the two
comparators are indistinguishable under the `< 0` tests through which the
runtime consults them. -/
theorem previewSort_eq_sortRelevant (fn : FingerName) (rules : List SizeRule) :
    previewSort fn rules = sortRelevant fn rules := by
  unfold previewSort sortRelevant
  exact insertionSort_congr
    (fun a _ b _ => previewCompare_lt_iff fn a b)

/-- C6: for every rule set, config, and width inside the inclusive range of
at least one rule applicable to the given finger, the admin rules/preview
endpoint computes the same mapped size for that finger as the live matcher
`applyRulesToFinger`: both scan the identically sorted filtered list and
return the first containing rule's mapped size. -/
theorem c6_preview_agreement (w : ℚ) (fn : FingerName) (rules : List SizeRule)
    (cfg : SizeRulesConfig)
    (hex : ∃ r ∈ rules, fingerMatches fn r = true ∧ containsWidth w r = true) :
    previewSort fn rules = sortRelevant fn rules
    ∧ ∃ s fit, applyRulesToFinger w fn rules cfg = some (s, fit)
      ∧ previewFinger w fn rules = s := by
  obtain ⟨r₀, hfind, -⟩ := exists_find?_contains hex
  refine ⟨previewSort_eq_sortRelevant fn rules,
    r₀.mappedSize, exactFit w r₀, applyRules_exact cfg hfind, ?_⟩
  unfold previewFinger
  rw [previewSort_eq_sortRelevant fn rules, hfind]

/-- Witness for C6 at the sharpest input: an `ALL` rule listed before an
equal-priority thumb-specific rule, both containing width 11 — the case on
which the two comparators textually differ — still yields the same size
from the preview and the live matcher. -/
theorem c6_preview_agreement_witness :
    (∃ r ∈ [ruleAll9, ruleThumb5], fingerMatches FingerName.thumb r = true
        ∧ containsWidth 11 r = true)
    ∧ (previewSort FingerName.thumb [ruleAll9, ruleThumb5]
        = sortRelevant FingerName.thumb [ruleAll9, ruleThumb5]
      ∧ ∃ s fit, applyRulesToFinger 11 FingerName.thumb [ruleAll9, ruleThumb5]
            defaultConfig = some (s, fit)
          ∧ previewFinger 11 FingerName.thumb [ruleAll9, ruleThumb5] = s) :=
  ⟨⟨ruleAll9, by decide, by decide, by decide⟩,
   c6_preview_agreement 11 FingerName.thumb [ruleAll9, ruleThumb5]
     defaultConfig ⟨ruleAll9, by decide, by decide, by decide⟩⟩

-- ── Inversion of a successful recommend invocation ───────────────────────────

theorem recommendPost_ok_inv {db : Db} {mid : String} {resp : RecommendResponse}
    {db2 : Db}
    (h : recommendPost db (Except.ok (some mid)) = (RouteOutcome.ok resp, db2)) :
    resp.measurement_id = mid
    ∧ resp.size_profile = sizeProfileOf resp.per_finger
    ∧ resp.matching_sets = rankSets resp.per_finger (fetchedSets db)
    ∧ db2 = { db with recommendations :=
        db.recommendations ++ [mkRecRow mid resp.per_finger (fetchedSets db)] }
    ∧ ∃ m, db.measurements.find? (fun x => decide (x.id = mid)) = some m
        ∧ (fetchedRules db).isEmpty = false
        ∧ buildPerFinger m.fingers (fetchedRules db) (fetchedConfig db)
            (fetchedSizes db) fingerNames = Except.ok resp.per_finger := by
  unfold recommendPost at h
  dsimp only at h
  cases hfm : db.measurements.find? (fun m => decide (m.id = mid)) with
  | none =>
    rw [hfm] at h
    simp at h
  | some m =>
    rw [hfm] at h
    dsimp only at h
    by_cases hre : (fetchedRules db).isEmpty
    · rw [if_pos hre] at h
      simp at h
    · rw [if_neg hre] at h
      cases hbp : buildPerFinger m.fingers (fetchedRules db) (fetchedConfig db)
          (fetchedSizes db) fingerNames with
      | error e =>
        rw [hbp] at h
        cases e <;> simp at h
      | ok perFinger =>
        rw [hbp] at h
        dsimp only at h
        rw [Prod.mk.injEq] at h
        obtain ⟨h1, h2⟩ := h
        injection h1 with h1
        subst h2
        subst h1
        exact ⟨rfl, rfl, rfl, rfl, m, rfl, by simpa using hre, hbp⟩

-- ── Claim C7 ─────────────────────────────────────────────────────────────────

/-- C7: the matching-sets list consists exactly of the sets whose entry diff
(the count of the five finger positions at which the set's size differs from
the recommended size) is at most 2, sorted ascending by diff with equal-diff
ties preserving input order; `exact_match` holds iff the diff is 0; and a
successful request records as `matchingSetId` the internal id of the first
ranked entry, or none when the ranked list is empty. -/
theorem c7_set_matcher (perFinger : List (FingerName × FingerResult))
    (sets : List SizeSetRow) :
    (rankSets perFinger sets).Perm
        ((sets.map (mkEntry perFinger)).filter (fun e => decide (e.diff ≤ 2)))
    ∧ (rankSets perFinger sets).Pairwise (fun a b => a.diff ≤ b.diff)
    ∧ (∀ k : ℕ, (rankSets perFinger sets).filter (fun e => decide (e.diff = k))
        = ((sets.map (mkEntry perFinger)).filter
            (fun e => decide (e.diff ≤ 2))).filter (fun e => decide (e.diff = k)))
    ∧ (∀ s : SizeSetRow, (mkEntry perFinger s).diff
          = (fingerNames.filter (fun n =>
              decide ((lookupFinger perFinger n).size ≠ setSize s n))).length
        ∧ ((mkEntry perFinger s).exact_match = true
            ↔ (mkEntry perFinger s).diff = 0))
    ∧ (∀ db mid resp db2,
        recommendPost db (Except.ok (some mid)) = (RouteOutcome.ok resp, db2) →
        resp.matching_sets = rankSets resp.per_finger (fetchedSets db)
        ∧ ∃ row : RecommendationRow,
          db2.recommendations = db.recommendations ++ [row]
          ∧ row.matchingSetId
              = (resp.matching_sets.head?).map (fun e => e.internalId)) := by
  refine ⟨List.perm_insertionSort _ _, ?_, ?_, ?_, ?_⟩
  · exact pairwise_insertionSort_of
      (fun (a b : MatchEntry) (_ _ : True) => by
        constructor <;> (intro h2; omega))
      (fun (a b : MatchEntry) (_ _ : True) => Nat.le_total a.diff b.diff)
      (fun (a b c : MatchEntry) (_ _ _ : True) hab hbc => le_trans hab hbc)
      (fun x _ => trivial)
  · intro k
    exact filter_key_insertionSort
      (fun (a b : MatchEntry) (_ _ : True) (h2 : a.diff = b.diff) => by omega)
      k (fun x _ => trivial)
  · intro s
    exact ⟨rfl, by simp [mkEntry]⟩
  · intro db mid resp db2 h
    obtain ⟨-, -, hms, hdb2, -⟩ := recommendPost_ok_inv h
    refine ⟨hms, mkRecRow mid resp.per_finger (fetchedSets db), by rw [hdb2], ?_⟩
    rw [hms]
    rfl

/-- Witness for C7: sets differing from the all-nines recommendation at 0, 1
and 3 positions are ranked as the exact set first, the one-off set second,
and the three-off set excluded. -/
theorem c7_set_matcher_witness :
    (rankSets perFinger9 [setFar, setEight, setNine]).Perm
        (([setFar, setEight, setNine].map (mkEntry perFinger9)).filter
          (fun e => decide (e.diff ≤ 2)))
    ∧ rankSets perFinger9 [setFar, setEight, setNine]
        = [mkEntry perFinger9 setNine, mkEntry perFinger9 setEight] :=
  ⟨(c7_set_matcher perFinger9 [setFar, setEight, setNine]).1, by decide⟩

-- ── Claim C2 ─────────────────────────────────────────────────────────────────

/-- C2 counterexample: against an empty database (no rules registered, so the
chart has no size rules), a recommend request with an unknown measurement id
yields `not_found`, not the `no_rules` configuration error: the source
fetches the measurement (step 1) before checking the rules (step 2). -/
theorem c2_order_counterexample :
    dbEmpty.sizeRules = []
    ∧ (recommendPost dbEmpty (Except.ok (some "msr_x"))).1
        = RouteOutcome.clientError "not_found" "Measurement not found"
    ∧ (recommendPost dbEmpty (Except.ok (some "msr_x"))).1
        ≠ RouteOutcome.clientError "no_rules"
            "Size mapping rules have not been configured. Contact admin." := by
  refine ⟨rfl, rfl, ?_⟩
  intro hcl
  rw [show (recommendPost dbEmpty (Except.ok (some "msr_x"))).1
      = RouteOutcome.clientError "not_found" "Measurement not found" from rfl]
    at hcl
  simp at hcl

/-- C2 amended: the measurement fetch precedes the rules check — an unknown
measurement id yields `not_found` regardless of the rule set, and the
distinct `no_rules` configuration error is returned (before any per-finger
processing) exactly when the measurement exists and the chart has no rules. -/
theorem c2_fetch_order (db : Db) (mid : String) :
    (db.measurements.find? (fun m => decide (m.id = mid)) = none →
      (recommendPost db (Except.ok (some mid))).1
        = RouteOutcome.clientError "not_found" "Measurement not found")
    ∧ (∀ m, db.measurements.find? (fun m2 => decide (m2.id = mid)) = some m →
        fetchedRules db = [] →
        (recommendPost db (Except.ok (some mid))).1
          = RouteOutcome.clientError "no_rules"
              "Size mapping rules have not been configured. Contact admin.") := by
  constructor
  · intro hfm
    unfold recommendPost
    dsimp only
    rw [hfm]
  · intro m hfm hrules
    unfold recommendPost
    dsimp only
    rw [hfm]
    dsimp only
    rw [if_pos (by rw [hrules]; rfl)]

/-- Witness for the amended C2: a database holding measurement `m1` and no
rules answers `no_rules` for `m1`. -/
theorem c2_fetch_order_witness :
    dbNoRules.measurements.find? (fun m2 => decide (m2.id = "m1")) = some measAll
    ∧ fetchedRules dbNoRules = []
    ∧ (recommendPost dbNoRules (Except.ok (some "m1"))).1
      = RouteOutcome.clientError "no_rules"
          "Size mapping rules have not been configured. Contact admin." :=
  ⟨rfl, rfl, (c2_fetch_order dbNoRules "m1").2 measAll rfl rfl⟩

-- ── The per-finger loop ──────────────────────────────────────────────────────

theorem lookupFinger_cons (x : FingerName × FingerResult)
    (l : List (FingerName × FingerResult)) (n : FingerName) :
    lookupFinger (x :: l) n = if x.1 = n then x.2 else lookupFinger l n := by
  unfold lookupFinger
  by_cases h : x.1 = n <;> simp [List.find?_cons, h]

theorem mem_fingerNames (n : FingerName) : n ∈ fingerNames := by
  cases n <;> simp [fingerNames]

theorem buildPerFinger_missing (fm : FingerName → Option FingerData)
    (rules : List SizeRule) (cfg : SizeRulesConfig)
    (sizeRows : List NailSizeRow)
    (hmat : ∀ n fd, fm n = some fd →
      ∃ s fit, applyRulesToFinger fd.curve_adj_width_mm n rules cfg
        = some (s, fit)) :
    ∀ (pre : List FingerName) (n : FingerName) (suf : List FingerName),
      (∀ x ∈ pre, (fm x).isSome) → fm n = none →
      buildPerFinger fm rules cfg sizeRows (pre ++ n :: suf)
        = Except.error (FingerLoopError.missingFinger n)
  | [], n, suf, _, hn => by simp [buildPerFinger, hn]
  | p :: pre, n, suf, hpre, hn => by
    have hp : (fm p).isSome := hpre p (List.mem_cons_self p pre)
    obtain ⟨fd, hfd⟩ := Option.isSome_iff_exists.mp hp
    obtain ⟨s, fit, happ⟩ := hmat p fd hfd
    have hrec := buildPerFinger_missing fm rules cfg sizeRows hmat pre n suf
      (fun x hx => hpre x (List.mem_cons_of_mem _ hx)) hn
    simp [buildPerFinger, hfd, happ, hrec]

theorem buildPerFinger_ok (fm : FingerName → Option FingerData)
    (rules : List SizeRule) (cfg : SizeRulesConfig)
    (sizeRows : List NailSizeRow) :
    ∀ (names : List FingerName),
      (∀ n ∈ names, ∃ fd s fit, fm n = some fd
        ∧ applyRulesToFinger fd.curve_adj_width_mm n rules cfg = some (s, fit)) →
      ∃ l, buildPerFinger fm rules cfg sizeRows names = Except.ok l
        ∧ l.map Prod.fst = names
        ∧ ∀ n fd s fit, n ∈ names → fm n = some fd →
            applyRulesToFinger fd.curve_adj_width_mm n rules cfg = some (s, fit) →
            lookupFinger l n
              = { size := s, size_label := sizeLabel sizeRows s,
                  width_mm := fd.curve_adj_width_mm, fit := fit }
  | [], _ => ⟨[], rfl, rfl, by intro n fd s fit hn; cases hn⟩
  | n₀ :: rest, hall => by
    obtain ⟨fd₀, s₀, fit₀, hfd₀, happ₀⟩ := hall n₀ (List.mem_cons_self n₀ rest)
    obtain ⟨l, hl, hmap, hlook⟩ := buildPerFinger_ok fm rules cfg sizeRows rest
      (fun n hn => hall n (List.mem_cons_of_mem _ hn))
    refine ⟨(n₀, (⟨s₀, sizeLabel sizeRows s₀, fd₀.curve_adj_width_mm, fit₀⟩ :
        FingerResult)) :: l, ?_, ?_, ?_⟩
    · simp [buildPerFinger, hfd₀, happ₀, hl]
    · simp [hmap]
    · intro n fd s fit hn hfm happ
      by_cases hxn : n₀ = n
      · subst hxn
        rw [lookupFinger_cons]
        rw [if_pos rfl]
        have hfd : fd = fd₀ := by
          rw [hfm] at hfd₀
          exact Option.some.inj hfd₀
        subst hfd
        rw [happ] at happ₀
        obtain ⟨hs, hf⟩ := Prod.mk.inj (Option.some.inj happ₀)
        rw [hs, hf]
      · rw [lookupFinger_cons]
        rw [if_neg hxn]
        rcases List.mem_cons.mp hn with rfl | hn
        · exact absurd rfl hxn
        · exact hlook n fd s fit hn hfm happ

-- ── Claim C8 ─────────────────────────────────────────────────────────────────

/-- C8 counterexample: with a thumb-specific-only rule set and a measurement
that lacks its `middle` entry (thumb and index present), the per-finger loop
faults at the index finger — whose filtered rule list is empty — before
reaching the missing finger, so the request ends in an unhandled fault, not
in a validation error naming `middle` (nor any validation error). -/
theorem c8_profile_composer_counterexample :
    measNoMiddle.fingers FingerName.middle = none
    ∧ (measNoMiddle.fingers FingerName.thumb).isSome = true
    ∧ (measNoMiddle.fingers FingerName.fIndex).isSome = true
    ∧ dbThumbOnlyNoMiddle.sizeRules ≠ []
    ∧ (recommendPost dbThumbOnlyNoMiddle (Except.ok (some "m3"))).1
        = RouteOutcome.fault
    ∧ ∀ msg, (recommendPost dbThumbOnlyNoMiddle (Except.ok (some "m3"))).1
        ≠ RouteOutcome.clientError "validation_error" msg := by
  have happT : applyRulesToFinger 11 FingerName.thumb [ruleThumb5]
      defaultConfig = some (5, FitLabel.standard) := by
    have hfind : (sortRelevant FingerName.thumb [ruleThumb5]).find?
        (containsWidth 11) = some ruleThumb5 := by decide
    have hfit : exactFit 11 ruleThumb5 = FitLabel.standard := by
      norm_num [exactFit, positionOf, ruleThumb5]
    rw [applyRules_exact defaultConfig hfind, hfit]
    rfl
  have happI : applyRulesToFinger 11 FingerName.fIndex [ruleThumb5]
      defaultConfig = none := by decide
  have hbp : buildPerFinger measNoMiddle.fingers
      (fetchedRules dbThumbOnlyNoMiddle) (fetchedConfig dbThumbOnlyNoMiddle)
      (fetchedSizes dbThumbOnlyNoMiddle) fingerNames
      = Except.error FingerLoopError.matcherFault := by
    rw [show fetchedRules dbThumbOnlyNoMiddle = [ruleThumb5] from rfl,
      show fetchedConfig dbThumbOnlyNoMiddle = defaultConfig from rfl,
      show fetchedSizes dbThumbOnlyNoMiddle = [] from rfl]
    simp only [fingerNames, buildPerFinger, measNoMiddle,
      show fingerData11.curve_adj_width_mm = 11 from rfl, happT, happI]
    rfl
  have hout : recommendPost dbThumbOnlyNoMiddle (Except.ok (some "m3"))
      = (RouteOutcome.fault, dbThumbOnlyNoMiddle) := by
    unfold recommendPost
    dsimp only
    rw [show dbThumbOnlyNoMiddle.measurements.find?
      (fun m => decide (m.id = "m3")) = some measNoMiddle from rfl]
    dsimp only
    rw [show (fetchedRules dbThumbOnlyNoMiddle).isEmpty = false from rfl]
    rw [if_neg Bool.false_ne_true]
    rw [hbp]
  refine ⟨rfl, rfl, rfl, by decide, by rw [hout], ?_⟩
  intro msg h
  rw [hout] at h
  simp at h

/-- C8 amended: fingers are processed in the fixed order thumb, index,
middle, ring, pinky; provided every finger has at least one applicable rule
(the condition under which the matcher is total, always met when an `ALL`
rule exists), a request whose measurement lacks some finger fails with a
validation error naming the first missing finger in that order and inserts
nothing; otherwise the request succeeds and `sizeProfile` is the five mapped
sizes joined by `-` in the fixed order, each size obtained by matching on
the finger's `curve_adj_width_mm`. -/
theorem c8_profile_composer (db : Db) (mid : String) (m : Measurement)
    (hm : db.measurements.find? (fun x => decide (x.id = mid)) = some m)
    (hr : (fetchedRules db).isEmpty = false)
    (htot : ∀ n : FingerName, (fetchedRules db).filter (fingerMatches n) ≠ []) :
    (∀ pre n suf, fingerNames = pre ++ n :: suf →
       (∀ x ∈ pre, (m.fingers x).isSome) → m.fingers n = none →
       recommendPost db (Except.ok (some mid))
         = (RouteOutcome.clientError "validation_error"
             ("Measurement missing data for finger: " ++ fingerString n), db))
    ∧ ((∀ n : FingerName, (m.fingers n).isSome) →
       ∃ (resp : RecommendResponse) (db2 : Db) (sizes : FingerName → ℤ),
         recommendPost db (Except.ok (some mid)) = (RouteOutcome.ok resp, db2)
         ∧ (∀ n fd, m.fingers n = some fd →
             ∃ fit, applyRulesToFinger fd.curve_adj_width_mm n (fetchedRules db)
                 (fetchedConfig db) = some (sizes n, fit))
         ∧ resp.size_profile = String.intercalate "-"
             (fingerNames.map (fun n => toString (sizes n)))) := by
  have hmat : ∀ (n : FingerName) (fd : FingerData),
      m.fingers n = some fd →
      ∃ s fit, applyRulesToFinger fd.curve_adj_width_mm n (fetchedRules db)
        (fetchedConfig db) = some (s, fit) :=
    fun n fd _ => applyRules_isSome (fetchedConfig db) (htot n)
  constructor
  · intro pre n suf hsplit hpre hn
    have hbp := buildPerFinger_missing m.fingers (fetchedRules db)
      (fetchedConfig db) (fetchedSizes db) hmat pre n suf hpre hn
    unfold recommendPost
    dsimp only
    rw [hm]
    dsimp only
    rw [hr]
    rw [if_neg Bool.false_ne_true]
    rw [hsplit, hbp]
  · intro hall
    have hall2 : ∀ n ∈ fingerNames, ∃ fd s fit, m.fingers n = some fd
        ∧ applyRulesToFinger fd.curve_adj_width_mm n (fetchedRules db)
            (fetchedConfig db) = some (s, fit) := by
      intro n _
      obtain ⟨fd, hfd⟩ := Option.isSome_iff_exists.mp (hall n)
      obtain ⟨s, fit, happ⟩ := hmat n fd hfd
      exact ⟨fd, s, fit, hfd, happ⟩
    obtain ⟨l, hl, -, hlook⟩ := buildPerFinger_ok m.fingers (fetchedRules db)
      (fetchedConfig db) (fetchedSizes db) fingerNames hall2
    have hres : recommendPost db (Except.ok (some mid))
        = (RouteOutcome.ok
            { measurement_id := mid, size_profile := sizeProfileOf l,
              per_finger := l, matching_sets := rankSets l (fetchedSets db) },
           { db with recommendations :=
              db.recommendations ++ [mkRecRow mid l (fetchedSets db)] }) := by
      unfold recommendPost
      dsimp only
      rw [hm]
      dsimp only
      rw [hr]
      rw [if_neg Bool.false_ne_true]
      rw [hl]
    refine ⟨_, _, fun n => (lookupFinger l n).size, hres, ?_, rfl⟩
    intro n fd hfd
    obtain ⟨s, fit, happ⟩ := hmat n fd hfd
    have hlk := hlook n fd s fit (mem_fingerNames n) hfd happ
    refine ⟨fit, ?_⟩
    simp only [hlk]
    exact happ

/-- Witness for C8 at a database whose single rule is an `ALL` rule: the
measurement lacking its `index` entry fails with the validation error naming
`index` and leaves the database unchanged. -/
theorem c8_profile_composer_witness :
    dbMain.measurements.find? (fun x => decide (x.id = "m2")) = some measNoIndex
    ∧ (fetchedRules dbMain).isEmpty = false
    ∧ (∀ n : FingerName, (fetchedRules dbMain).filter (fingerMatches n) ≠ [])
    ∧ fingerNames = [FingerName.thumb] ++ FingerName.fIndex
        :: [FingerName.middle, FingerName.ring, FingerName.pinky]
    ∧ measNoIndex.fingers FingerName.fIndex = none
    ∧ recommendPost dbMain (Except.ok (some "m2"))
      = (RouteOutcome.clientError "validation_error"
          "Measurement missing data for finger: index", dbMain) := by
  have htot : ∀ n : FingerName,
      (fetchedRules dbMain).filter (fingerMatches n) ≠ [] := by
    intro n
    cases n <;> decide
  have h := (c8_profile_composer dbMain "m2" measNoIndex rfl rfl htot).1
    [FingerName.thumb] FingerName.fIndex
    [FingerName.middle, FingerName.ring, FingerName.pinky]
    rfl (by decide) rfl
  exact ⟨rfl, rfl, htot, rfl, rfl, h⟩

-- ── Claim C9 ─────────────────────────────────────────────────────────────────

/-- C9: a successful recommend invocation appends exactly one row to the
`recommendations` table, built only after per-finger matching, profile
composition and set ranking have succeeded, and leaves every other table
unchanged; an invocation failing at any earlier step leaves the database
(and in particular `recommendations`) untouched.  (That no code elsewhere in
the repository updates or deletes a `recommendations` row is checked by
inspection: the table is only inserted here and read by the measure-history
route.) -/
theorem c9_recorder_single_append (db : Db) (body : RecommendBody) :
    (∀ resp db2, recommendPost db body = (RouteOutcome.ok resp, db2) →
       db2.recommendations = db.recommendations
         ++ [mkRecRow resp.measurement_id resp.per_finger (fetchedSets db)]
       ∧ db2.measurements = db.measurements
       ∧ db2.sizeRules = db.sizeRules
       ∧ db2.sizeRulesConfig = db.sizeRulesConfig
       ∧ db2.nailSizes = db.nailSizes
       ∧ db2.sizeSets = db.sizeSets)
    ∧ (∀ out db2, recommendPost db body = (out, db2) →
        (∀ resp, out ≠ RouteOutcome.ok resp) → db2 = db) := by
  constructor
  · intro resp db2 h
    cases body with
    | error e =>
      rw [show recommendPost db (Except.error e)
        = (RouteOutcome.clientError "validation_error"
            "Request body must be JSON", db) from rfl] at h
      simp at h
    | ok mid? =>
      cases mid? with
      | none =>
        rw [show recommendPost db (Except.ok none)
          = (RouteOutcome.clientError "validation_error"
              "measurement_id is required", db) from rfl] at h
        simp at h
      | some mid =>
        obtain ⟨hmid, -, -, hdb2, -⟩ := recommendPost_ok_inv h
        rw [hdb2, hmid]
        exact ⟨rfl, rfl, rfl, rfl, rfl, rfl⟩
  · intro out db2 h hno
    cases body with
    | error e =>
      rw [show recommendPost db (Except.error e)
        = (RouteOutcome.clientError "validation_error"
            "Request body must be JSON", db) from rfl] at h
      exact (Prod.mk.inj h.symm).2
    | ok mid? =>
      cases mid? with
      | none =>
        rw [show recommendPost db (Except.ok none)
          = (RouteOutcome.clientError "validation_error"
              "measurement_id is required", db) from rfl] at h
        exact (Prod.mk.inj h.symm).2
      | some mid =>
        unfold recommendPost at h
        dsimp only at h
        cases hfm : db.measurements.find? (fun m => decide (m.id = mid)) with
        | none =>
          rw [hfm] at h
          dsimp only at h
          exact (Prod.mk.inj h.symm).2
        | some m =>
          rw [hfm] at h
          dsimp only at h
          by_cases hre : (fetchedRules db).isEmpty
          · rw [if_pos hre] at h
            exact (Prod.mk.inj h.symm).2
          · rw [if_neg hre] at h
            cases hbp : buildPerFinger m.fingers (fetchedRules db)
                (fetchedConfig db) (fetchedSizes db) fingerNames with
            | error e =>
              rw [hbp] at h
              cases e <;> exact (Prod.mk.inj h.symm).2
            | ok perFinger =>
              rw [hbp] at h
              dsimp only at h
              obtain ⟨h1, -⟩ := Prod.mk.inj h
              exact absurd h1.symm (hno _)

-- ── Concrete evaluation of the pipeline on `dbMain` ──────────────────────────

theorem applyRules_all9 (n : FingerName) :
    applyRulesToFinger 11 n [ruleAll9] defaultConfig
      = some (9, FitLabel.standard) := by
  have hfind : (sortRelevant n [ruleAll9]).find? (containsWidth 11)
      = some ruleAll9 := by
    cases n <;> decide
  have hfit : exactFit 11 ruleAll9 = FitLabel.standard := by
    norm_num [exactFit, positionOf, ruleAll9]
  rw [applyRules_exact defaultConfig hfind, hfit]
  rfl

theorem buildPerFinger_dbMain :
    buildPerFinger measAll.fingers (fetchedRules dbMain) (fetchedConfig dbMain)
      (fetchedSizes dbMain) fingerNames = Except.ok perFinger9 := by
  rw [show fetchedRules dbMain = [ruleAll9] from rfl,
    show fetchedConfig dbMain = defaultConfig from rfl,
    show fetchedSizes dbMain = [] from rfl]
  simp only [fingerNames, perFinger9, buildPerFinger, measAll,
    show fingerData11.curve_adj_width_mm = 11 from rfl, applyRules_all9,
    List.map_cons, List.map_nil]
  rfl

theorem recommendPost_dbMain_ok :
    recommendPost dbMain (Except.ok (some "m1"))
      = (RouteOutcome.ok
          { measurement_id := "m1", size_profile := sizeProfileOf perFinger9,
            per_finger := perFinger9,
            matching_sets := rankSets perFinger9 (fetchedSets dbMain) },
         { dbMain with recommendations :=
            dbMain.recommendations
              ++ [mkRecRow "m1" perFinger9 (fetchedSets dbMain)] }) := by
  unfold recommendPost
  dsimp only
  rw [show dbMain.measurements.find? (fun m => decide (m.id = "m1"))
    = some measAll from rfl]
  dsimp only
  rw [show (fetchedRules dbMain).isEmpty = false from rfl]
  rw [if_neg Bool.false_ne_true]
  rw [buildPerFinger_dbMain]

/-- Witness for C9: the successful invocation on `dbMain` appends exactly
the recorded row and leaves the measurements table unchanged. -/
theorem c9_recorder_single_append_witness :
    ∃ resp db2,
      recommendPost dbMain (Except.ok (some "m1")) = (RouteOutcome.ok resp, db2)
      ∧ db2.recommendations = dbMain.recommendations
          ++ [mkRecRow resp.measurement_id resp.per_finger (fetchedSets dbMain)]
      ∧ db2.measurements = dbMain.measurements := by
  refine ⟨_, _, recommendPost_dbMain_ok, ?_⟩
  have h := (c9_recorder_single_append dbMain (Except.ok (some "m1"))).1 _ _
    recommendPost_dbMain_ok
  exact ⟨h.1, h.2.1⟩

end SevNailSizer
